import Mathlib

/-!
Verification of the extraction core of the BluePrint Insight repository.

The embedded code comes from:
* `src/components/TemplateManager.tsx` (second compilation unit in that file,
  the extraction service): `extractData`, `extractFromGemini`,
  `extractFromOpenAI`;
* `src/App.tsx`: the batch runner `processAll` / `processFile`;
* `src/types.ts`: the data model.

JavaScript runtime primitives used by that code (`JSON.parse`,
`String.prototype.trim/endsWith/split/includes`, the `/\/+$/` regex replace,
object member access including the `TypeError` raised by member access on
`null`/`undefined`, optional chaining, and truthiness) are embedded by
executable Lean functions following the ECMAScript semantics of the
constructs actually exercised.  JSON numbers are modelled as exact
decimals, and their `String()` rendering reproduces JavaScript's plain
decimal form (double rounding and the exponent-notation thresholds of
very large or very small magnitudes are outside the model); JS whitespace
is the common ASCII subset.  No claim's concrete input touches these
corners.
-/

set_option maxRecDepth 4096

/-- A JSON number as an exact decimal `mantissa × 10 ^ exponent`.  The parser
produces the canonical form determined by the literal's digits, so syntactic
equality of parses of equal literals holds; no claim compares numbers. -/
structure JsonNumber where
  mantissa : Int
  exponent : Int
deriving DecidableEq

/-- A JSON value, as produced by `JSON.parse`.  Object members are kept as an
ordered association list; duplicate keys are resolved by `jsObjLookup`, which
returns the last binding, matching JavaScript object literal semantics. -/
inductive Json where
  | null
  | bool (b : Bool)
  | num (n : JsonNumber)
  | str (s : String)
  | arr (xs : List Json)
  | obj (kvs : List (String × Json))

/-- Errors thrown by the embedded JavaScript code.  `error` is
`new Error(message)`; `syntaxError` is the `SyntaxError` thrown by
`JSON.parse` on invalid input (its engine-specific message is not modelled);
`typeErrorFailedToFetch` is the `TypeError` with message `"Failed to fetch"`
thrown by `fetch` on a transport-level failure; `typeErrorNullAccess prop`
is the `TypeError` thrown by reading property `prop` of `null` or
`undefined` (its engine-specific message is not modelled, but it is distinct
from `"Failed to fetch"` in every engine). -/
inductive JsError where
  | error (message : String)
  | syntaxError
  | typeErrorFailedToFetch
  | typeErrorNullAccess (prop : String)
deriving DecidableEq

/-- JSON whitespace accepted between tokens by `JSON.parse`
(space, tab, line feed, carriage return). -/
def jsonWsChar (c : Char) : Bool :=
  c == ' ' || c == '\t' || c == '\n' || c == '\r'

/-- Skip JSON inter-token whitespace. -/
def skipWs (cs : List Char) : List Char :=
  cs.dropWhile jsonWsChar

/-- Parse the remainder of a JSON string literal (the opening quote has been
consumed), handling the escape sequences of the JSON grammar.  Control
characters below U+0020 are rejected, as in `JSON.parse`. -/
def parseStringRest : List Char → Option (String × List Char)
  | [] => none
  | '"' :: rest => some ("", rest)
  | '\\' :: c :: rest =>
    let esc : Option Char :=
      match c with
      | '"' => some '"'
      | '\\' => some '\\'
      | '/' => some '/'
      | 'b' => some '\x08'
      | 'f' => some '\x0c'
      | 'n' => some '\n'
      | 'r' => some '\r'
      | 't' => some '\t'
      | _ => none
    match esc with
    | some e =>
      match parseStringRest rest with
      | some (s, r) => some (String.mk (e :: s.data), r)
      | none => none
    | none =>
      -- \uXXXX escapes
      if c == 'u' then
        match rest with
        | h1 :: h2 :: h3 :: h4 :: rest2 =>
          if h1.isDigit || ('a' ≤ h1 && h1 ≤ 'f') || ('A' ≤ h1 && h1 ≤ 'F') then
            let hexVal (h : Char) : Nat :=
              if h.isDigit then h.toNat - '0'.toNat
              else if 'a' ≤ h && h ≤ 'f' then h.toNat - 'a'.toNat + 10
              else h.toNat - 'A'.toNat + 10
            if (h2.isDigit || ('a' ≤ h2 && h2 ≤ 'f') || ('A' ≤ h2 && h2 ≤ 'F')) &&
               (h3.isDigit || ('a' ≤ h3 && h3 ≤ 'f') || ('A' ≤ h3 && h3 ≤ 'F')) &&
               (h4.isDigit || ('a' ≤ h4 && h4 ≤ 'f') || ('A' ≤ h4 && h4 ≤ 'F')) then
              let n := hexVal h1 * 4096 + hexVal h2 * 256 + hexVal h3 * 16 + hexVal h4
              match parseStringRest rest2 with
              | some (s, r) => some (String.mk (Char.ofNat n :: s.data), r)
              | none => none
            else none
          else none
        | _ => none
      else none
  | c :: rest =>
    if c.toNat < 0x20 then none
    else
      match parseStringRest rest with
      | some (s, r) => some (String.mk (c :: s.data), r)
      | none => none

/-- Parse the digits of a natural number, returning value and digit count. -/
def parseDigits : List Char → Option (Nat × Nat × List Char)
  | cs =>
    let digits := cs.takeWhile Char.isDigit
    if digits.isEmpty then none
    else
      let value := digits.foldl (fun acc c => acc * 10 + (c.toNat - '0'.toNat)) 0
      some (value, digits.length, cs.dropWhile Char.isDigit)

/-- Parse a JSON number per the JSON grammar
`-?(0|[1-9][0-9]*)(\.[0-9]+)?([eE][+-]?[0-9]+)?`, as an exact decimal. -/
def parseNumber (cs : List Char) : Option (JsonNumber × List Char) :=
  let (neg, cs₁) : Bool × List Char :=
    match cs with
    | '-' :: rest => (true, rest)
    | _ => (false, cs)
  match parseDigits cs₁ with
  | none => none
  | some (intPart, intLen, cs₂) =>
    -- JSON forbids leading zeros on multi-digit integer parts
    if intLen > 1 && cs₁.head? = some '0' then none
    else
      let (fracNum, fracLen, cs₃) : Nat × Nat × List Char :=
        match cs₂ with
        | '.' :: rest =>
          match parseDigits rest with
          | some (f, l, r) => (f, l, r)
          | none => (0, 0, cs₂)
        | _ => (0, 0, cs₂)
      -- a '.' not followed by digits is a syntax error
      if cs₂.head? = some '.' && fracLen = 0 then none
      else
        let (expVal, expOk, cs₄) : Int × Bool × List Char :=
          match cs₃ with
          | 'e' :: rest | 'E' :: rest =>
            let (eneg, rest₂) : Bool × List Char :=
              match rest with
              | '+' :: r => (false, r)
              | '-' :: r => (true, r)
              | _ => (false, rest)
            match parseDigits rest₂ with
            | some (e, _, r) => (if eneg then -(e : Int) else (e : Int), true, r)
            | none => (0, false, cs₃)
          | _ => (0, true, cs₃)
        if !expOk then none
        else
          let mantissa : Int := (intPart * 10 ^ fracLen + fracNum : Nat)
          some (⟨if neg then -mantissa else mantissa, expVal - fracLen⟩, cs₄)

mutual

/-- Parse one JSON value; `fuel` bounds recursion depth (chosen large enough
for any input by `parseJsonChars`). -/
def parseVal : Nat → List Char → Option (Json × List Char)
  | 0, _ => none
  | fuel + 1, cs =>
    match skipWs cs with
    | 'n' :: 'u' :: 'l' :: 'l' :: rest => some (.null, rest)
    | 't' :: 'r' :: 'u' :: 'e' :: rest => some (.bool true, rest)
    | 'f' :: 'a' :: 'l' :: 's' :: 'e' :: rest => some (.bool false, rest)
    | '"' :: rest =>
      match parseStringRest rest with
      | some (s, r) => some (.str s, r)
      | none => none
    | '[' :: rest =>
      (match skipWs rest with
       | ']' :: rest₂ => some (.arr [], rest₂)
       | _ => parseItems fuel rest [])
    | '{' :: rest =>
      (match skipWs rest with
       | '}' :: rest₂ => some (.obj [], rest₂)
       | _ => parseMembers fuel rest [])
    | c :: rest =>
      if c == '-' || c.isDigit then
        match parseNumber (c :: rest) with
        | some (q, r) => some (.num q, r)
        | none => none
      else none
    | [] => none

/-- Parse the comma-separated items of a JSON array (after `[`). -/
def parseItems : Nat → List Char → List Json → Option (Json × List Char)
  | 0, _, _ => none
  | fuel + 1, cs, acc =>
    match parseVal fuel cs with
    | none => none
    | some (v, rest) =>
      match skipWs rest with
      | ',' :: rest₂ => parseItems fuel rest₂ (acc ++ [v])
      | ']' :: rest₂ => some (.arr (acc ++ [v]), rest₂)
      | _ => none

/-- Parse the comma-separated members of a JSON object (after `{`). -/
def parseMembers : Nat → List Char → List (String × Json) →
    Option (Json × List Char)
  | 0, _, _ => none
  | fuel + 1, cs, acc =>
    match skipWs cs with
    | '"' :: rest =>
      match parseStringRest rest with
      | none => none
      | some (k, rest₂) =>
        match skipWs rest₂ with
        | ':' :: rest₃ =>
          match parseVal fuel rest₃ with
          | none => none
          | some (v, rest₄) =>
            match skipWs rest₄ with
            | ',' :: rest₅ => parseMembers fuel rest₅ (acc ++ [(k, v)])
            | '}' :: rest₅ => some (.obj (acc ++ [(k, v)]), rest₅)
            | _ => none
        | _ => none
    | _ => none

end

/-- `JSON.parse` on a character list: parse one value and require only
whitespace to remain.  The fuel `4 * length + 4` strictly dominates the
recursion depth of any parse. -/
def parseJsonChars (cs : List Char) : Option Json :=
  match parseVal (4 * cs.length + 4) cs with
  | some (v, rest) => if (skipWs rest).isEmpty then some v else none
  | none => none

/-- `JSON.parse` on a string: `some` the parsed value, `none` when a
`SyntaxError` is thrown. -/
def parseJson (s : String) : Option Json :=
  parseJsonChars s.data

/-! ### JavaScript value semantics helpers -/

/-- Member lookup on a JavaScript object: the *last* binding of a duplicated
key wins, as in object literals produced by `JSON.parse`. -/
def jsObjLookup (kvs : List (String × Json)) (k : String) : Option Json :=
  List.lookup k kvs.reverse

/-- JavaScript falsiness of a JSON value (`null`, `false`, `0`, `""`). -/
def jsFalsyJson (v : Json) : Bool :=
  match v with
  | .null => true
  | .bool b => !b
  | .num n => n.mantissa == 0
  | .str s => s == ""
  | _ => false

/-- Plain member access `v.prop` on a defined JavaScript value.
Reading a property of `null` or `undefined` throws a `TypeError`; reading a
missing property of any other value yields `undefined` (`none`).  Properties
of primitives and array/string index or `length` properties other than those
exercised here are not modelled beyond yielding `undefined`. -/
def jsMemberAccess (v : Option Json) (prop : String) :
    Except JsError (Option Json) :=
  match v with
  | none => .error (.typeErrorNullAccess prop)
  | some .null => .error (.typeErrorNullAccess prop)
  | some (.obj kvs) => .ok (jsObjLookup kvs prop)
  | some _ => .ok none

/-- Optional-chain member access `v?.prop`: `null`/`undefined` short-circuit
to `undefined` instead of throwing. -/
def jsOptChainMember (v : Option Json) (prop : String) : Option Json :=
  match v with
  | none => none
  | some .null => none
  | some (.obj kvs) => jsObjLookup kvs prop
  | some _ => none

/-- Index access `v[0]`: throws on `null`/`undefined`, indexes arrays and
strings, looks up the `"0"` member of objects, else `undefined`. -/
def jsIndexZero (v : Option Json) : Except JsError (Option Json) :=
  match v with
  | none => .error (.typeErrorNullAccess "0")
  | some .null => .error (.typeErrorNullAccess "0")
  | some (.arr xs) => .ok xs.head?
  | some (.str s) => .ok (s.data.head?.map fun c => .str (String.mk [c]))
  | some (.obj kvs) => .ok (jsObjLookup kvs "0")
  | some _ => .ok none

/-- Drop factors of ten from a mantissa into the exponent, so that
`1.50` and `1.5` render alike, as they do for a JavaScript number.
The fuel (the mantissa's absolute value) dominates the number of
droppable factors. -/
def stripTenFactors : Nat → Int → Int → Int × Int
  | 0, m, e => (m, e)
  | fuel + 1, m, e =>
    if m ≠ 0 ∧ m % 10 = 0 then stripTenFactors fuel (m / 10) (e + 1)
    else (m, e)

/-- The `String()` rendering of a number, in JavaScript's plain decimal
form: an integer when the normalised exponent is non-negative, otherwise
digits around a decimal point.  This reproduces `String(x)` exactly for
numbers JavaScript prints in plain decimal form (magnitude below `1e21`
and at least `1e-6`) whose decimal value a double holds exactly; the
exponent-notation thresholds and double rounding are outside the model
and are not touched by any claim's input. -/
def jsNumberToString (n : JsonNumber) : String :=
  if n.mantissa = 0 then "0"
  else
    let me := stripTenFactors n.mantissa.natAbs n.mantissa n.exponent
    let sign := if me.1 < 0 then "-" else ""
    let ds := me.1.natAbs.repr.data
    if me.2 ≥ 0 then
      sign ++ String.mk ds ++ String.mk (List.replicate me.2.toNat '0')
    else
      let d := (-me.2).toNat
      if d < ds.length then
        sign ++ String.mk (ds.take (ds.length - d)) ++ "." ++
          String.mk (ds.drop (ds.length - d))
      else
        sign ++ "0." ++ String.mk (List.replicate (d - ds.length) '0') ++
          String.mk ds

mutual

/-- The `String(x)` coercion applied by `new Error(x)` to a non-string
argument: strings verbatim, `true`/`false`/`null` keywords,
`"[object Object]"` for objects, `Array.prototype.join(",")` for arrays
(with `null` elements rendered empty), and `jsNumberToString` for
numbers. -/
def jsToMessage : Json → String
  | .str s => s
  | .bool b => if b then "true" else "false"
  | .null => "null"
  | .num n => jsNumberToString n
  | .arr xs => jsJoin xs
  | .obj _ => "[object Object]"

/-- `Array.prototype.join(",")` of the elements' coercions, where a
`null` element contributes the empty string. -/
def jsJoin : List Json → String
  | [] => ""
  | [.null] => ""
  | [v] => jsToMessage v
  | .null :: rest => "," ++ jsJoin rest
  | v :: rest => jsToMessage v ++ "," ++ jsJoin rest

end

/-- Whitespace recognised by `String.prototype.trim` (the ASCII subset;
exotic Unicode whitespace is not exercised by this codebase). -/
def isJsWhitespace (c : Char) : Bool :=
  c == ' ' || c == '\t' || c == '\n' || c == '\r' || c == '\x0b' || c == '\x0c'

/-- Drop the longest run of characters satisfying `p` from the end. -/
def dropTrailingWhile (p : Char → Bool) (l : List Char) : List Char :=
  (l.reverse.dropWhile p).reverse

/-- `String.prototype.trim` on a character list. -/
def jsTrimChars (l : List Char) : List Char :=
  dropTrailingWhile isJsWhitespace (l.dropWhile isJsWhitespace)

/-- The regex replace `url.replace(/\/+$/, '')`: remove every trailing
slash. -/
def dropTrailingSlashes (l : List Char) : List Char :=
  (l.reverse.dropWhile (· == '/')).reverse

/-- The chat-completions path suffix appended by the Generic Chat adapter. -/
def chatSuffix : List Char := "/chat/completions".data

/-- The URL normalisation at the top of `extractFromOpenAI`
(TemplateManager.tsx lines 230-233):
`let url = config.baseUrl.trim(); if (!url.endsWith('/chat/completions'))
url = url.replace(/\/+$/, '') + '/chat/completions';`  -/
def normalizeChatUrlChars (l : List Char) : List Char :=
  let url := jsTrimChars l
  if chatSuffix <:+ url then url
  else dropTrailingSlashes url ++ chatSuffix

/-- String wrapper for `normalizeChatUrlChars`. -/
def normalizeChatUrl (s : String) : String :=
  String.mk (normalizeChatUrlChars s.data)

/-- `fileDataBase64.includes(',')`. -/
def includesComma (s : String) : Bool :=
  s.data.contains ','

/-- `fileDataBase64.split(',')[1] || fileDataBase64` from
`extractFromGemini`'s inline data construction. -/
def geminiInlineData (s : String) : String :=
  match (s.splitOn ",").get? 1 with
  | some t => if t == "" then s else t
  | none => s

/-! ### Data model (src/types.ts)

`FieldType` is a TypeScript string enum; at runtime a field's `type` is a
plain string, and templates imported from JSON (TemplateManager.tsx only
checks `template.name` and `Array.isArray(template.fields)`) can carry
strings outside the declared enumeration, so the embedding keeps `type`
as `String` with the declared values as named constants. -/

def FieldType.STRING : String := "STRING"

def FieldType.NUMBER : String := "NUMBER"

def FieldType.BOOLEAN : String := "BOOLEAN"

def FieldType.ARRAY_STRING : String := "ARRAY_STRING"

def FieldType.ARRAY_NUMBER : String := "ARRAY_NUMBER"

/-- The declared `FieldType` enumeration. -/
def declaredFieldTypes : List String :=
  [FieldType.STRING, FieldType.NUMBER, FieldType.BOOLEAN,
   FieldType.ARRAY_STRING, FieldType.ARRAY_NUMBER]

/-- `ExtractionField` from src/types.ts. -/
structure ExtractionField where
  id : String
  key : String
  label : String
  type : String
  description : String
deriving DecidableEq

/-- `AIProvider` from src/types.ts (`'gemini' | 'openai'`). -/
inductive AIProvider where
  | gemini
  | openai
deriving DecidableEq

/-- `OpenAIConfig` from src/types.ts. -/
structure OpenAIConfig where
  baseUrl : String
  apiKey : String
  model : String
deriving DecidableEq

/-- `AppSettings` from src/types.ts; `openai` is the optional endpoint
config.  `temperature` (a JS number) is modelled as an exact decimal; it is
only ever passed through. -/
structure AppSettings where
  provider : AIProvider
  openai : Option OpenAIConfig
  systemPrompt : String
  temperature : JsonNumber
deriving DecidableEq

/-! ### Schema Compiler (TemplateManager.tsx lines 185-197)

The `@google/genai` `Type` enum and the schema descriptors built from the
field list, mirroring

```
fields.forEach(field => {
  required.push(field.key);
  switch (field.type) {
    case FieldType.STRING: properties[field.key] = { type: Type.STRING, description: field.description }; break;
    ...
  }
});
``` -/

/-- The `Type` enum of `@google/genai` (only the members used). -/
inductive SchemaType where
  | STRING
  | NUMBER
  | BOOLEAN
  | ARRAY
deriving DecidableEq

/-- A property descriptor in the structured output schema:
`{ type, items?, description }`. -/
structure GeminiProp where
  type : SchemaType
  items : Option SchemaType
  description : String
deriving DecidableEq

/-- JavaScript object assignment `obj[key] = value` on an association-list
record: replaces in place when the key exists, else appends. -/
def recordSet (m : List (String × α)) (k : String) (v : α) :
    List (String × α) :=
  if m.any (fun kv => kv.1 == k) then
    m.map (fun kv => if kv.1 == k then (k, v) else kv)
  else m ++ [(k, v)]

/-- The `switch (field.type)` of the Schema Compiler: the descriptor
assigned to `properties[field.key]`, or `none` when no case matches
(the switch has no default). -/
def fieldDescriptor (field : ExtractionField) : Option GeminiProp :=
  if field.type == FieldType.STRING then
    some ⟨SchemaType.STRING, none, field.description⟩
  else if field.type == FieldType.NUMBER then
    some ⟨SchemaType.NUMBER, none, field.description⟩
  else if field.type == FieldType.BOOLEAN then
    some ⟨SchemaType.BOOLEAN, none, field.description⟩
  else if field.type == FieldType.ARRAY_STRING then
    some ⟨SchemaType.ARRAY, some SchemaType.STRING, field.description⟩
  else if field.type == FieldType.ARRAY_NUMBER then
    some ⟨SchemaType.ARRAY, some SchemaType.NUMBER, field.description⟩
  else none

/-- One iteration of the `fields.forEach` loop: push the key onto
`required`, then run the switch on the `properties` record. -/
def schemaStep (acc : List (String × GeminiProp) × List String)
    (field : ExtractionField) : List (String × GeminiProp) × List String :=
  (match fieldDescriptor field with
   | some d => recordSet acc.1 field.key d
   | none => acc.1,
   acc.2 ++ [field.key])

/-- The compiled structured-output schema `(properties, required)`. -/
def buildGeminiSchema (fields : List ExtractionField) :
    List (String × GeminiProp) × List String :=
  fields.foldl schemaStep ([], [])

/-! ### Provider Adapter (Structured) — `extractFromGemini`
(TemplateManager.tsx lines 174-220)

The adapter is an async function whose only effect is one
`ai.models.generateContent` call.  The embedding makes the environment
explicit: `apiKey` is `process.env.API_KEY` (`none` = unset), and `net`
gives the provider's response text for the request the adapter builds.
Universally quantifying a theorem over `net` expresses independence from
the network (no request observable). -/

/-- The `generateContent` request built by `extractFromGemini`. -/
structure GeminiRequest where
  model : String
  mimeType : String
  inlineData : String
  text : String
  responseMimeType : String
  properties : List (String × GeminiProp)
  required : List String
  temperature : JsonNumber

/-- JavaScript falsiness of an optional string (`!apiKey`): `undefined`
(`none`) or the empty string. -/
def jsFalsyStr (s : Option String) : Bool :=
  match s with
  | none => true
  | some s => s == ""

/-- `extractFromGemini`: fail fast when `process.env.API_KEY` is unset or
empty (`if (!apiKey) throw new Error("API Key is missing")`), build the
schema, issue the request, and `JSON.parse` the response text (a parse
failure is the propagated `SyntaxError`; the `catch` only logs and
rethrows). -/
def extractFromGemini (fileDataBase64 : String) (fields : List ExtractionField)
    (mimeType : String) (systemPrompt : String) (temperature : JsonNumber)
    (apiKey : Option String) (net : GeminiRequest → String) :
    Except JsError Json :=
  if jsFalsyStr apiKey then .error (.error "API Key is missing")
  else
    let schema := buildGeminiSchema fields
    let req : GeminiRequest :=
      { model := "gemini-3-flash-preview"
        mimeType := mimeType
        inlineData := geminiInlineData fileDataBase64
        text := systemPrompt
        responseMimeType := "application/json"
        properties := schema.1
        required := schema.2
        temperature := temperature }
    match parseJson (net req) with
    | some v => .ok v
    | none => .error .syntaxError

/-! ### Provider Adapter (Generic Chat) — `extractFromOpenAI`
(TemplateManager.tsx lines 222-286) -/

/-- JSON string-literal serialisation used by `JSON.stringify` (common
escapes; rarer control-character escapes are not exercised here). -/
def stringifyString (s : String) : String :=
  let esc : Char → List Char := fun c =>
    if c == '"' then ['\\', '"']
    else if c == '\\' then ['\\', '\\']
    else if c == '\n' then ['\\', 'n']
    else if c == '\r' then ['\\', 'r']
    else if c == '\t' then ['\\', 't']
    else [c]
  String.mk ('"' :: (s.data.flatMap esc) ++ ['"'])

/-- `JSON.stringify` of the `Record<string, string>` contract built by the
Generic Chat adapter. -/
def stringifyStrRecord (m : List (String × String)) : String :=
  "\x7b" ++
    String.intercalate ","
      (m.map fun kv => stringifyString kv.1 ++ ":" ++ stringifyString kv.2) ++
  "\x7d"

/-- The chat-completions request built by `extractFromOpenAI`. -/
structure OpenAIRequest where
  url : String
  apiKey : String
  model : String
  promptText : String
  imageUrl : String
  responseFormat : String
  temperature : JsonNumber

/-- Result of `fetch`: either a transport-level failure (the rejected
promise carrying `TypeError("Failed to fetch")`) or an HTTP response with
its `ok` flag, `status`, and body text (`response.json()` parses the
body). -/
inductive FetchOutcome where
  | networkFailure
  | response (ok : Bool) (status : Nat) (body : String)

/-- The non-2xx branch of `extractFromOpenAI`:
`const errorData = await response.json().catch(() => ({}));
throw new Error(errorData.error?.message || "HTTP error! status: " + status)`.
Returns the message of the thrown `Error`, or the `TypeError` thrown by
`errorData.error` when the body parses to JSON `null`. -/
def httpErrorMessage (status : Nat) (body : String) : Except JsError String :=
  let errorData : Json := (parseJson body).getD (.obj [])
  match jsMemberAccess (some errorData) "error" with
  | .error e => .error e
  | .ok errVal =>
    match jsOptChainMember errVal "message" with
    | some m =>
      if jsFalsyJson m then .ok ("HTTP error! status: " ++ Nat.repr status)
      else .ok (jsToMessage m)
    | none => .ok ("HTTP error! status: " ++ Nat.repr status)

/-- The `errorData.error?.message` read performed by the non-2xx branch,
with `errorData = await response.json().catch(() => ({}))`: the member
read `errorData.error` throws a `TypeError` when the body parses to JSON
`null`, and otherwise the optional chain yields the `message` value
(`none` = `undefined`). -/
def httpBodyMessage (body : String) : Except JsError (Option Json) :=
  let errorData : Json := (parseJson body).getD (.obj [])
  match jsMemberAccess (some errorData) "error" with
  | .error e => .error e
  | .ok errVal => .ok (jsOptChainMember errVal "message")

/-- `data.choices[0]?.message?.content` on the parsed success body. -/
def openAIContent (data : Json) : Except JsError (Option Json) :=
  match jsMemberAccess (some data) "choices" with
  | .error e => .error e
  | .ok choices =>
    match jsIndexZero choices with
    | .error e => .error e
    | .ok elem =>
      .ok (jsOptChainMember (jsOptChainMember elem "message") "content")

/-- The `try` block of `extractFromOpenAI`: normalise the URL, build the
data URL and textual contract, issue the request, and handle the
response. -/
def extractFromOpenAITry (fileDataBase64 : String)
    (fields : List ExtractionField) (mimeType : String)
    (config : OpenAIConfig) (systemPrompt : String)
    (temperature : JsonNumber) (fetchResult : OpenAIRequest → FetchOutcome) :
    Except JsError Json :=
  let url := normalizeChatUrl config.baseUrl
  let base64Data :=
    if includesComma fileDataBase64 then fileDataBase64
    else "data:" ++ mimeType ++ ";base64," ++ fileDataBase64
  let schema := fields.foldl (fun acc f => recordSet acc f.key f.description) []
  let prompt := systemPrompt ++
    "\n  Required JSON structure keys and descriptions: " ++
    stringifyStrRecord schema ++
    "\n  Return ONLY valid JSON matching this structure. Do not include any other text."
  let req : OpenAIRequest :=
    { url := url
      apiKey := config.apiKey
      model := config.model
      promptText := prompt
      imageUrl := base64Data
      responseFormat := "json_object"
      temperature := temperature }
  match fetchResult req with
  | .networkFailure => .error .typeErrorFailedToFetch
  | .response ok status body =>
    if !ok then
      match httpErrorMessage status body with
      | .ok m => .error (.error m)
      | .error e => .error e
    else
      match parseJson body with
      | none => .error .syntaxError
      | some data =>
        match openAIContent data with
        | .error e => .error e
        | .ok contentOpt =>
          match contentOpt with
          | none => .error (.error "No content received from AI provider")
          | some c =>
            if jsFalsyJson c then
              .error (.error "No content received from AI provider")
            else
              match c with
              | .str s =>
                (match parseJson s with
                 | some v => .ok v
                 | none => .error .syntaxError)
              | _ => .ok c

/-- The connectivity guidance message of the Generic Chat adapter. -/
def networkErrorMessage : String :=
  "Network error: Failed to connect to the API server. Check URL and connection."

/-- `extractFromOpenAI`: the `try` block with its `catch`, which re-labels
exactly `TypeError("Failed to fetch")` as the network-guidance `Error` and
rethrows every other exception unchanged. -/
def extractFromOpenAI (fileDataBase64 : String)
    (fields : List ExtractionField) (mimeType : String)
    (config : OpenAIConfig) (systemPrompt : String)
    (temperature : JsonNumber) (fetchResult : OpenAIRequest → FetchOutcome) :
    Except JsError Json :=
  match extractFromOpenAITry fileDataBase64 fields mimeType config
      systemPrompt temperature fetchResult with
  | .error .typeErrorFailedToFetch => .error (.error networkErrorMessage)
  | r => r

/-! ### Extraction Orchestrator — `extractData`
(TemplateManager.tsx lines 162-172) -/

/-- Which adapter an invocation reaches. -/
inductive Route where
  | openaiRoute
  | geminiRoute
deriving DecidableEq

/-- The dispatch condition of `extractData`:
`if (settings.provider === 'openai' && settings.openai) return
extractFromOpenAI(...); return extractFromGemini(...);` -/
def extractDataRoute (settings : AppSettings) : Route :=
  match settings.provider, settings.openai with
  | .openai, some _ => .openaiRoute
  | _, _ => .geminiRoute

/-- `extractData`, the orchestrator entry point.  `envApiKey` is
`process.env.API_KEY`; `geminiNet`/`openAIFetch` are the two providers'
network behaviours. -/
def extractData (fileDataBase64 : String) (fields : List ExtractionField)
    (mimeType : String) (settings : AppSettings) (envApiKey : Option String)
    (geminiNet : GeminiRequest → String)
    (openAIFetch : OpenAIRequest → FetchOutcome) : Except JsError Json :=
  match settings.provider, settings.openai with
  | .openai, some cfg =>
    extractFromOpenAI fileDataBase64 fields mimeType cfg
      settings.systemPrompt settings.temperature openAIFetch
  | _, _ =>
    extractFromGemini fileDataBase64 fields mimeType
      settings.systemPrompt settings.temperature envApiKey geminiNet

/-- Modelled from the spec: the endpoint-config invariant of §3
("`GenericChat` variant requires `endpointBase`, `apiKey`, and `modelName`
all non-empty before invocation") — a fully-populated endpoint config. -/
def specEndpointFullyPopulated (settings : AppSettings) : Bool :=
  match settings.openai with
  | some c => c.baseUrl != "" && c.apiKey != "" && c.model != ""
  | none => false

/-! ### Batch Runner — `processAll` / `processFile` (src/App.tsx lines 133-169)

A file's record is `FileStatus` from src/types.ts.  `processFile` flips the
record to `processing` (clearing `error`), awaits the extraction, and writes
the outcome; sequential awaiting means only the net effect on the record is
observable to the rest of the batch, so the embedding applies the two
`updateFileStatus` calls together.  The extraction outcome for a document is
abstracted as a function of its record (its `file` payload is immutable). -/

/-- The per-document lifecycle states of `FileStatus.status`. -/
inductive DocStatus where
  | pending
  | processing
  | completed
  | error
deriving DecidableEq

/-- `FileStatus` from src/types.ts.  `file` stands for the immutable `File`
object (identified here by its name), `result` is the extraction result and
`error` the stored failure message. -/
structure FileRecord where
  id : String
  file : String
  previewUrl : String
  status : DocStatus
  result : Option Json
  error : Option String
  sha256 : Option String

/-- `f.status === 'pending' || f.status === 'error'`. -/
def isPendingOrError (f : FileRecord) : Bool :=
  f.status == .pending || f.status == .error

/-- `state.files.some(f => f.status === 'pending' || f.status === 'error')`. -/
def hasPending (files : List FileRecord) : Bool :=
  files.any isPendingOrError

/-- The `toProcess` selection of `processAll`:

```
const toProcess = state.files.filter(f => {
  if (f.status === 'processing') return false;
  if (hasPending) return f.status === 'pending' || f.status === 'error';
  return true;
});
``` -/
def toProcess (files : List FileRecord) : List FileRecord :=
  files.filter fun f =>
    if f.status == .processing then false
    else if hasPending files then isPendingOrError f
    else true

/-- The net effect of `processFile` on the record it owns: on success
`{ status: 'completed', result }` (with `error` cleared by the preceding
`processing` update), on failure `{ status: 'error', error: message }`
(leaving any previous `result` in place). -/
def applyOutcome (outcome : FileRecord → Except String Json)
    (f : FileRecord) : FileRecord :=
  match outcome f with
  | .ok v => { f with status := .completed, result := some v, error := none }
  | .error m => { f with status := .error, error := some m }

/-- `processFile(id)`: no-op when no record has the id (`if (!fileStatus)
return`), else update every record with that id via `updateFileStatus`'s
`files.map(f => f.id === id ? {...} : f)`. -/
def processFile (outcome : FileRecord → Except String Json)
    (files : List FileRecord) (id : String) : List FileRecord :=
  match files.find? (fun f => f.id == id) with
  | none => files
  | some _ => files.map fun f => if f.id == id then applyOutcome outcome f else f

/-- `processAll`: sequentially `await processFile(f.id)` for each selected
document, in selection order. -/
def processAll (outcome : FileRecord → Except String Json)
    (files : List FileRecord) : List FileRecord :=
  (toProcess files).foldl (fun cur f => processFile outcome cur f.id) files

/-! ### Concrete sample inputs used by witnesses and counterexamples -/

/-- A sample Generic Chat endpoint configuration. -/
def sampleConfig : OpenAIConfig :=
  ⟨"https://api.example.com/v1", "sk-test", "gpt-4o"⟩

/-- Two well-formed sample fields with unique keys and declared types. -/
def sampleFields : List ExtractionField :=
  [⟨"1", "width", "Width", FieldType.STRING, "dw"⟩,
   ⟨"2", "count", "Count", FieldType.NUMBER, "dc"⟩]

/-- A field whose `type` lies outside the declared `FieldType`
enumeration (as can arrive via JSON template import). -/
def dateField : ExtractionField :=
  ⟨"9", "weld_date", "Weld date", "DATE", "date of weld"⟩

/-- A 401 body whose `error.message` is exactly the adapter's own
network-guidance text. -/
def craftedBody : String :=
  "\x7b\"error\":\x7b\"message\":\"Network error: Failed to connect to the API server. Check URL and connection.\"\x7d\x7d"

/-- Batch documents with statuses `[completed, error, pending]`. -/
def doc1 : FileRecord :=
  ⟨"1", "a.png", "blob:1", .completed, some (.obj []), none, some "h1"⟩

/-- See `doc1`. -/
def doc2 : FileRecord :=
  ⟨"2", "b.png", "blob:2", .error, none, some "failed", some "h2"⟩

/-- See `doc1`. -/
def doc3 : FileRecord :=
  ⟨"3", "c.png", "blob:3", .pending, none, none, some "h3"⟩

/-- A sample extraction outcome for batch runs: every document succeeds
with `{"width": 7}`. -/
def okOutcome : FileRecord → Except String Json :=
  fun _ => .ok (.obj [("width", .num ⟨7, 0⟩)])

/-! ## Helper lemmas -/

theorem dropWhile_eq_self_of_head_false {p : Char → Bool} {l : List Char}
    (h : ∀ c, l.head? = some c → p c = false) :
    l.dropWhile p = l := by
  cases l with
  | nil => rfl
  | cons a t => rw [List.dropWhile_cons, h a rfl]; simp

theorem head_false_of_dropWhile_self {p : Char → Bool} {l : List Char}
    (hl : l.dropWhile p = l) : ∀ c, l.head? = some c → p c = false := by
  cases l with
  | nil => intro c hc; simp at hc
  | cons a t =>
    intro c hc
    simp only [List.head?_cons, Option.some.injEq] at hc
    subst hc
    by_contra hpa
    rw [List.dropWhile_cons, if_pos (by simpa using hpa)] at hl
    have hle := (List.dropWhile_suffix (l := t) p).length_le
    rw [hl] at hle
    simp at hle

theorem prefix_head?_eq {α : Type} {l l' : List α} (hp : l' <+: l)
    {a : α} {t : List α} (h : l' = a :: t) : l.head? = some a := by
  obtain ⟨r, hr⟩ := hp
  rw [← hr, h]
  rfl

theorem dropTrailingWhile_prefix (p : Char → Bool) (l : List Char) :
    dropTrailingWhile p l <+: l := by
  have hs : l.reverse.dropWhile p <:+ l.reverse := List.dropWhile_suffix p
  have := List.reverse_prefix.mpr hs
  simpa [dropTrailingWhile] using this

theorem dropTrailingWhile_append_singleton (p : Char → Bool) (l : List Char)
    {c : Char} (hc : p c = false) :
    dropTrailingWhile p (l ++ [c]) = l ++ [c] := by
  simp [dropTrailingWhile, List.dropWhile_cons, hc]

theorem jsTrimChars_no_leading (l : List Char) :
    (jsTrimChars l).dropWhile isJsWhitespace = jsTrimChars l := by
  apply dropWhile_eq_self_of_head_false
  intro c hc
  cases hJ : jsTrimChars l with
  | nil => rw [hJ] at hc; simp at hc
  | cons a t =>
    rw [hJ] at hc
    simp only [List.head?_cons, Option.some.injEq] at hc
    subst hc
    have hpre : jsTrimChars l <+: l.dropWhile isJsWhitespace :=
      dropTrailingWhile_prefix _ _
    have hd : (l.dropWhile isJsWhitespace).head? = some a :=
      prefix_head?_eq (hJ ▸ hpre) rfl
    exact head_false_of_dropWhile_self (List.dropWhile_idempotent _ _) a hd

theorem chatSuffix_split : chatSuffix = "/chat/completion".data ++ ['s'] := by
  decide

theorem dropTrailing_of_chatSuffix {l : List Char} (h : chatSuffix <:+ l) :
    dropTrailingWhile isJsWhitespace l = l := by
  obtain ⟨t, ht⟩ := h
  have hl : l = (t ++ "/chat/completion".data) ++ ['s'] := by
    rw [← ht, chatSuffix_split, List.append_assoc]
  rw [hl]
  exact dropTrailingWhile_append_singleton _ _ (by decide)

theorem normalize_suffix (l : List Char) :
    chatSuffix <:+ normalizeChatUrlChars l := by
  unfold normalizeChatUrlChars
  by_cases h : chatSuffix <:+ jsTrimChars l
  · simp only [h, if_true]
  · simp only [h, if_false]; exact List.suffix_append _ chatSuffix

theorem normalize_no_leading (l : List Char) :
    (normalizeChatUrlChars l).dropWhile isJsWhitespace =
      normalizeChatUrlChars l := by
  unfold normalizeChatUrlChars
  by_cases h : chatSuffix <:+ jsTrimChars l
  · simpa [h] using jsTrimChars_no_leading l
  · simp only [h, if_false]
    apply dropWhile_eq_self_of_head_false
    intro c hc
    cases hD : dropTrailingSlashes (jsTrimChars l) with
    | nil =>
      rw [hD] at hc
      simp only [List.nil_append] at hc
      have : c = '/' := by
        have : chatSuffix.head? = some '/' := by decide
        rw [this] at hc
        exact (Option.some.injEq _ _ ▸ hc.symm)
      subst this
      decide
    | cons a t =>
      rw [hD] at hc
      simp only [List.cons_append, List.head?_cons, Option.some.injEq] at hc
      subst hc
      have hpre : dropTrailingSlashes (jsTrimChars l) <+: jsTrimChars l :=
        dropTrailingWhile_prefix _ _
      have hd : (jsTrimChars l).head? = some a :=
        prefix_head?_eq (hD ▸ hpre) rfl
      exact head_false_of_dropWhile_self (jsTrimChars_no_leading l) a hd

theorem normalize_trim (l : List Char) :
    jsTrimChars (normalizeChatUrlChars l) = normalizeChatUrlChars l := by
  unfold jsTrimChars
  rw [normalize_no_leading]
  exact dropTrailing_of_chatSuffix (normalize_suffix l)

theorem normalizeChatUrlChars_idem (l : List Char) :
    normalizeChatUrlChars (normalizeChatUrlChars l) =
      normalizeChatUrlChars l := by
  conv_lhs => rw [normalizeChatUrlChars]
  simp only [normalize_trim, normalize_suffix, if_true]

theorem recordSet_fresh {α : Type} {m : List (String × α)} {k : String}
    (h : k ∉ m.map Prod.fst) (v : α) : recordSet m k v = m ++ [(k, v)] := by
  unfold recordSet
  rw [if_neg]
  simp only [List.any_eq_true, beq_iff_eq, not_exists, not_and]
  intro kv hkv hk
  exact h (hk ▸ List.mem_map_of_mem Prod.fst hkv)

theorem foldl_schemaStep_required (fields : List ExtractionField)
    (acc : List (String × GeminiProp) × List String) :
    (fields.foldl schemaStep acc).2 = acc.2 ++ fields.map (fun f => f.key) := by
  induction fields generalizing acc with
  | nil => simp
  | cons f fs ih =>
    rw [List.foldl_cons, ih]
    simp [schemaStep, List.append_assoc]

theorem lookup_map_replace {α : Type} {t : List (String × α)}
    {k k' : String} (h : (k == k') = false) (v : α) :
    List.lookup k (t.map fun kv => if kv.1 == k' then (k', v) else kv) =
      List.lookup k t := by
  induction t with
  | nil => rfl
  | cons kv t ih =>
    simp only [List.map_cons]
    by_cases hhead : kv.1 = k'
    · rw [if_pos (by simpa using hhead)]
      have h2 : (k == kv.1) = false := by rw [hhead]; exact h
      simp only [List.lookup, h, h2, ih]
    · rw [if_neg (by simpa using hhead)]
      simp only [List.lookup]
      cases hkk : k == kv.1
      · simp only [hkk]; exact ih
      · simp only [hkk]

theorem lookup_append_single {α : Type} {t : List (String × α)}
    {k k' : String} (h : (k == k') = false) (v : α) :
    List.lookup k (t ++ [(k', v)]) = List.lookup k t := by
  induction t with
  | nil => simp [List.lookup, h]
  | cons kv t ih =>
    simp only [List.cons_append, List.lookup]
    cases hkk : k == kv.1 <;> simp [hkk, ih]

theorem lookup_recordSet_ne {α : Type} {m : List (String × α)}
    {k k' : String} (h : ¬k = k') (v : α) :
    List.lookup k (recordSet m k' v) = List.lookup k m := by
  have hkk' : (k == k') = false := by simpa using h
  unfold recordSet
  split
  · exact lookup_map_replace hkk' v
  · exact lookup_append_single hkk' v

theorem foldl_schemaStep_lookup_none (fields : List ExtractionField)
    (acc : List (String × GeminiProp) × List String) (k : String)
    (hacc : List.lookup k acc.1 = none)
    (hf : ∀ g ∈ fields, g.key = k → fieldDescriptor g = none) :
    List.lookup k (fields.foldl schemaStep acc).1 = none := by
  induction fields generalizing acc with
  | nil => exact hacc
  | cons g gs ih =>
    rw [List.foldl_cons]
    apply ih
    · show List.lookup k (schemaStep acc g).1 = none
      unfold schemaStep
      cases hd : fieldDescriptor g with
      | none => simpa using hacc
      | some d =>
        simp only
        by_cases hk : g.key = k
        · exact absurd hd (by rw [hf g (List.mem_cons_self g gs) hk]; simp)
        · rw [lookup_recordSet_ne (fun hkk => hk hkk.symm)]
          exact hacc
    · intro g' hg' hk
      exact hf g' (List.mem_cons_of_mem g hg') hk

theorem foldl_schemaStep_props (fields : List ExtractionField)
    (acc : List (String × GeminiProp) × List String)
    (hfresh : ∀ f ∈ fields, f.key ∉ acc.1.map Prod.fst)
    (hnd : (fields.map (fun f => f.key)).Nodup) :
    (fields.foldl schemaStep acc).1 =
      acc.1 ++ fields.filterMap
        (fun f => (fieldDescriptor f).map fun d => (f.key, d)) := by
  induction fields generalizing acc with
  | nil => simp
  | cons f fs ih =>
    rw [List.foldl_cons]
    have hnd' : (f.key ∉ fs.map fun g => g.key) ∧
        (fs.map fun g => g.key).Nodup := by
      rw [List.map_cons, List.nodup_cons] at hnd
      exact hnd
    have hfreshf : f.key ∉ acc.1.map Prod.fst :=
      hfresh f (List.mem_cons_self f fs)
    cases hd : fieldDescriptor f with
    | none =>
      have hstep : (schemaStep acc f).1 = acc.1 := by simp [schemaStep, hd]
      rw [ih (schemaStep acc f)
            (fun g hg => hstep ▸ hfresh g (List.mem_cons_of_mem f hg))
            hnd'.2]
      simp [hstep, hd]
    | some d =>
      have hstep : (schemaStep acc f).1 = acc.1 ++ [(f.key, d)] := by
        simp [schemaStep, hd, recordSet_fresh hfreshf]
      rw [ih (schemaStep acc f)
            (fun g hg => by
              rw [hstep]
              simp only [List.map_append, List.mem_append]
              rintro (hgacc | hgf)
              · exact hfresh g (List.mem_cons_of_mem f hg) hgacc
              · simp only [List.map_cons, List.map_nil, List.mem_singleton] at hgf
                exact hnd'.1 (hgf ▸ List.mem_map_of_mem (fun g => g.key) hg))
            hnd'.2]
      rw [hstep]
      simp [hd, List.append_assoc]

theorem lookup_filterMap_descriptor (fields : List ExtractionField)
    (f : ExtractionField) (hf : f ∈ fields)
    (hnd : (fields.map (fun g => g.key)).Nodup)
    {d : GeminiProp} (hd : fieldDescriptor f = some d) :
    List.lookup f.key
      (fields.filterMap fun g => (fieldDescriptor g).map fun d => (g.key, d)) =
      some d := by
  induction fields with
  | nil => cases hf
  | cons g gs ih =>
    have hnd' : (g.key ∉ gs.map fun g => g.key) ∧
        (gs.map fun g => g.key).Nodup := by
      rw [List.map_cons, List.nodup_cons] at hnd
      exact hnd
    rcases List.mem_cons.mp hf with hfg | hfgs
    · subst hfg
      rw [List.filterMap_cons, hd]
      simp [List.lookup_cons]
    · have hne : ¬f.key = g.key := by
        intro hk
        exact hnd'.1 (hk ▸ List.mem_map_of_mem (fun g => g.key) hfgs)
      rw [List.filterMap_cons]
      cases hdg : fieldDescriptor g with
      | none => exact ih hfgs hnd'.2
      | some d' =>
        simp only [Option.map_some']
        rw [List.lookup_cons]
        have : (f.key == g.key) = false := by simpa using hne
        rw [this]
        exact ih hfgs hnd'.2

theorem fieldDescriptor_eq_none {f : ExtractionField}
    (h : f.type ∉ declaredFieldTypes) : fieldDescriptor f = none := by
  simp only [declaredFieldTypes, FieldType.STRING, FieldType.NUMBER,
    FieldType.BOOLEAN, FieldType.ARRAY_STRING, FieldType.ARRAY_NUMBER,
    List.mem_cons, List.mem_singleton, not_or] at h
  obtain ⟨h1, h2, h3, h4, h5⟩ := h
  simp [fieldDescriptor, FieldType.STRING, FieldType.NUMBER,
    FieldType.BOOLEAN, FieldType.ARRAY_STRING, FieldType.ARRAY_NUMBER,
    h1, h2, h3, h4, h5]

/-! ## Claim theorems -/

/-- Claim C4: the Generic Chat URL normalizer is idempotent on its own
output — applying it twice to any `endpointBase` yields the same URL as
applying it once, with no double-suffixing — and in particular it maps
`"https://api.example.com/v1"` to
`"https://api.example.com/v1/chat/completions"` and leaves
`"https://api.example.com/v1/chat/completions"` unchanged. -/
theorem claimC4_normalizeChatUrl_idempotent :
    (∀ s : String, normalizeChatUrl (normalizeChatUrl s) = normalizeChatUrl s) ∧
    normalizeChatUrl "https://api.example.com/v1" =
      "https://api.example.com/v1/chat/completions" ∧
    normalizeChatUrl "https://api.example.com/v1/chat/completions" =
      "https://api.example.com/v1/chat/completions" :=
  ⟨fun s => congrArg String.mk (normalizeChatUrlChars_idem s.data),
   by decide, by decide⟩

/-- Claim C2: for every field list with unique keys whose field types all
lie in the declared enumeration, the structured-schema compiler produces a
`required` list exactly equal to the field keys in declaration order with
no duplicates, and a `properties` map sending each key to a descriptor
whose type follows STRING→string, NUMBER→number, BOOLEAN→boolean,
ARRAY_STRING→array-of-string, ARRAY_NUMBER→array-of-number, carrying the
field's description. -/
theorem claimC2_structured_schema (fields : List ExtractionField)
    (hkeys : (fields.map fun f => f.key).Nodup)
    (htypes : ∀ f ∈ fields, f.type ∈ declaredFieldTypes) :
    (buildGeminiSchema fields).2 = fields.map (fun f => f.key) ∧
    (buildGeminiSchema fields).2.Nodup ∧
    ∀ f ∈ fields,
      (f.type = FieldType.STRING →
        List.lookup f.key (buildGeminiSchema fields).1 =
          some ⟨SchemaType.STRING, none, f.description⟩) ∧
      (f.type = FieldType.NUMBER →
        List.lookup f.key (buildGeminiSchema fields).1 =
          some ⟨SchemaType.NUMBER, none, f.description⟩) ∧
      (f.type = FieldType.BOOLEAN →
        List.lookup f.key (buildGeminiSchema fields).1 =
          some ⟨SchemaType.BOOLEAN, none, f.description⟩) ∧
      (f.type = FieldType.ARRAY_STRING →
        List.lookup f.key (buildGeminiSchema fields).1 =
          some ⟨SchemaType.ARRAY, some SchemaType.STRING, f.description⟩) ∧
      (f.type = FieldType.ARRAY_NUMBER →
        List.lookup f.key (buildGeminiSchema fields).1 =
          some ⟨SchemaType.ARRAY, some SchemaType.NUMBER, f.description⟩) := by
  have hreq : (buildGeminiSchema fields).2 = fields.map fun f => f.key :=
    foldl_schemaStep_required fields ([], [])
  have hprops : (buildGeminiSchema fields).1 =
      fields.filterMap fun f => (fieldDescriptor f).map fun d => (f.key, d) := by
    have := foldl_schemaStep_props fields ([], []) (by simp) hkeys
    simpa [buildGeminiSchema] using this
  refine ⟨hreq, hreq ▸ hkeys, fun f hf => ?_⟩
  refine ⟨fun ht => ?_, fun ht => ?_, fun ht => ?_, fun ht => ?_, fun ht => ?_⟩ <;>
    (rw [hprops]
     apply lookup_filterMap_descriptor fields f hf hkeys
     simp [fieldDescriptor, ht, FieldType.STRING, FieldType.NUMBER,
       FieldType.BOOLEAN, FieldType.ARRAY_STRING, FieldType.ARRAY_NUMBER])

/-- Witness for C2 at a concrete two-field list. -/
theorem claimC2_witness :
    (buildGeminiSchema sampleFields).2 = ["width", "count"] ∧
    List.lookup "width" (buildGeminiSchema sampleFields).1 =
      some ⟨SchemaType.STRING, none, "dw"⟩ ∧
    List.lookup "count" (buildGeminiSchema sampleFields).1 =
      some ⟨SchemaType.NUMBER, none, "dc"⟩ := by
  have h := claimC2_structured_schema sampleFields (by decide) (by decide)
  refine ⟨h.1, ?_, ?_⟩
  · exact (h.2.2 ⟨"1", "width", "Width", FieldType.STRING, "dw"⟩
      (by decide)).1 rfl
  · exact (h.2.2 ⟨"2", "count", "Count", FieldType.NUMBER, "dc"⟩
      (by decide)).2.1 rfl

/-- Counterexample to claim C3 as stated: at the concrete field
`dateField` (whose `valueKind` `"DATE"` is outside the declared
enumeration) the Schema Compiler returns normally — no contract error is
raised — with an empty `properties` map (the field is ignored) while the
key is still pushed onto `required`. -/
theorem claimC3_counterexample :
    buildGeminiSchema [dateField] = ([], ["weld_date"]) := by
  decide

/-- Claim C3 as amended: for every field whose `valueKind` is outside the
declared enumeration, the Schema Compiler does NOT raise a contract error;
it returns normally, silently omitting the field from `properties` while
still listing its key in `required`. -/
theorem claimC3_amended (f : ExtractionField)
    (h : f.type ∉ declaredFieldTypes) :
    buildGeminiSchema [f] = ([], [f.key]) := by
  simp [buildGeminiSchema, schemaStep, fieldDescriptor_eq_none h]

/-- Witness for the amended C3 at the concrete `dateField`. -/
theorem claimC3_witness :
    ("DATE" ∉ declaredFieldTypes) ∧
    buildGeminiSchema [dateField] = ([], ["weld_date"]) :=
  ⟨by decide, claimC3_amended dateField (by decide)⟩

/-- Claim C10: the structured-schema compiler pushes every field's key into
`required` regardless of the field's type; a field whose type falls outside
the declared enumeration (and whose key is not also used by a field with a
declared type) still has its key listed in `required` while `properties`
contains no descriptor for that key. -/
theorem claimC10_required_without_descriptor
    (fields : List ExtractionField) (f : ExtractionField)
    (hf : f ∈ fields) (ht : f.type ∉ declaredFieldTypes)
    (hkey : ∀ g ∈ fields, g.key = f.key → g.type ∉ declaredFieldTypes) :
    (buildGeminiSchema fields).2 = fields.map (fun g => g.key) ∧
    f.key ∈ (buildGeminiSchema fields).2 ∧
    List.lookup f.key (buildGeminiSchema fields).1 = none := by
  have hreq : (buildGeminiSchema fields).2 = fields.map fun g => g.key :=
    foldl_schemaStep_required fields ([], [])
  refine ⟨hreq, ?_, ?_⟩
  · rw [hreq]
    exact List.mem_map_of_mem (fun g => g.key) hf
  · exact foldl_schemaStep_lookup_none fields ([], []) f.key rfl
      (fun g hg hk => fieldDescriptor_eq_none (hkey g hg hk))

/-- Witness for C10 at a list mixing a declared-type field and
`dateField`. -/
theorem claimC10_witness :
    (buildGeminiSchema [⟨"1", "width", "Width", FieldType.STRING, "dw"⟩,
        dateField]).2 = ["width", "weld_date"] ∧
    "weld_date" ∈ (buildGeminiSchema
        [⟨"1", "width", "Width", FieldType.STRING, "dw"⟩, dateField]).2 ∧
    List.lookup "weld_date" (buildGeminiSchema
        [⟨"1", "width", "Width", FieldType.STRING, "dw"⟩, dateField]).1 =
      none := by
  have h := claimC10_required_without_descriptor
    [⟨"1", "width", "Width", FieldType.STRING, "dw"⟩, dateField] dateField
    (by decide) (by decide) (by decide)
  exact ⟨h.1, h.2.1, h.2.2⟩

/-- Claim C8: for every invocation of the structured adapter with the
process-wide API key absent or empty, the adapter fails with the
configuration error `"API Key is missing"`; the result is the same for
every possible network behaviour `net`, i.e. no request is observable and
the failure precedes any network call. -/
theorem claimC8_gemini_missing_key (fileDataBase64 : String)
    (fields : List ExtractionField) (mimeType systemPrompt : String)
    (temperature : JsonNumber) (apiKey : Option String)
    (net : GeminiRequest → String)
    (h : apiKey = none ∨ apiKey = some "") :
    extractFromGemini fileDataBase64 fields mimeType systemPrompt temperature
      apiKey net = .error (.error "API Key is missing") := by
  have hf : jsFalsyStr apiKey = true := by
    rcases h with h | h <;> simp [jsFalsyStr, h]
  simp [extractFromGemini, hf]

/-- Witness for C8 with the key unset and a live network answering `{}`. -/
theorem claimC8_witness :
    extractFromGemini "img" [] "image/png" "p" ⟨0, 0⟩ none
      (fun _ => "\x7b\x7d") = .error (.error "API Key is missing") :=
  claimC8_gemini_missing_key "img" [] "image/png" "p" ⟨0, 0⟩ none
    (fun _ => "\x7b\x7d") (Or.inl rfl)

/-- Counterexample to claim C5 as stated: with a valid key and a provider
returning empty text, the structured adapter does not succeed with `{}`;
`JSON.parse("")` throws, so the invocation fails with a `SyntaxError`. -/
theorem claimC5_counterexample :
    extractFromGemini "img" [] "image/png" "p" ⟨0, 0⟩ (some "key")
        (fun _ => "") = .error .syntaxError ∧
    extractFromGemini "img" [] "image/png" "p" ⟨0, 0⟩ (some "key")
        (fun _ => "") ≠ .ok (.obj []) := by
  refine ⟨rfl, fun h => ?_⟩
  rw [show extractFromGemini "img" [] "image/png" "p" ⟨0, 0⟩ (some "key")
      (fun _ => "") = .error .syntaxError from rfl] at h
  exact Except.noConfusion h

/-- Claim C5 as amended: for every invocation of the structured adapter
with a non-falsy API key in which the provider returns empty text, the
adapter fails with the `JSON.parse` `SyntaxError` instead of treating the
response as `{}`. -/
theorem claimC5_amended (fileDataBase64 : String)
    (fields : List ExtractionField) (mimeType systemPrompt : String)
    (temperature : JsonNumber) (apiKey : Option String)
    (h : jsFalsyStr apiKey = false) :
    extractFromGemini fileDataBase64 fields mimeType systemPrompt temperature
      apiKey (fun _ => "") = .error .syntaxError := by
  simp only [extractFromGemini, h, Bool.false_eq_true, if_false]
  rfl

/-- Witness for the amended C5 with a concrete key. -/
theorem claimC5_witness :
    jsFalsyStr (some "key") = false ∧
    extractFromGemini "img" [] "image/png" "p" ⟨0, 0⟩ (some "key")
      (fun _ => "") = .error .syntaxError :=
  ⟨rfl, claimC5_amended "img" [] "image/png" "p" ⟨0, 0⟩ (some "key") rfl⟩

theorem openAI_http_message (fileDataBase64 : String)
    (fields : List ExtractionField) (mimeType : String)
    (config : OpenAIConfig) (systemPrompt : String) (temperature : JsonNumber)
    (status : Nat) (body : String) (kvs : List (String × Json)) (s : String)
    (hp : parseJson body = some (.obj kvs))
    (hm : jsOptChainMember (jsObjLookup kvs "error") "message" =
      some (.str s))
    (hs : s ≠ "") :
    extractFromOpenAI fileDataBase64 fields mimeType config systemPrompt
      temperature (fun _ => .response false status body) =
      .error (.error s) := by
  have hfalsy : jsFalsyJson (.str s) = false := by
    simpa [jsFalsyJson] using hs
  have hmsg : httpErrorMessage status body = .ok s := by
    unfold httpErrorMessage
    rw [hp]
    simp [jsMemberAccess, hm, hfalsy, jsToMessage]
  simp [extractFromOpenAI, extractFromOpenAITry, hmsg]

theorem httpBodyMessage_cases (body : String) :
    parseJson body = some .null ∨ httpBodyMessage body = .ok none ∨
      ∃ m, httpBodyMessage body = .ok (some m) := by
  cases hpj : parseJson body with
  | none =>
    refine Or.inr (Or.inl ?_)
    simp only [httpBodyMessage, hpj]
    rfl
  | some v =>
    cases v with
    | null => exact Or.inl rfl
    | obj kvs =>
      cases hc : jsOptChainMember (jsObjLookup kvs "error") "message" with
      | none =>
        refine Or.inr (Or.inl ?_)
        simp only [httpBodyMessage, hpj]
        simp [jsMemberAccess, hc]
      | some m =>
        refine Or.inr (Or.inr ⟨m, ?_⟩)
        simp only [httpBodyMessage, hpj]
        simp [jsMemberAccess, hc]
    | bool b =>
      refine Or.inr (Or.inl ?_)
      simp only [httpBodyMessage, hpj]
      rfl
    | num n =>
      refine Or.inr (Or.inl ?_)
      simp only [httpBodyMessage, hpj]
      rfl
    | str s =>
      refine Or.inr (Or.inl ?_)
      simp only [httpBodyMessage, hpj]
      rfl
    | arr xs =>
      refine Or.inr (Or.inl ?_)
      simp only [httpBodyMessage, hpj]
      rfl

theorem httpErrorMessage_null (status : Nat) {body : String}
    (h : parseJson body = some .null) :
    httpErrorMessage status body = .error (.typeErrorNullAccess "error") := by
  simp only [httpErrorMessage, h]
  rfl

theorem httpErrorMessage_truthy (status : Nat) {body : String} {m : Json}
    (hm : httpBodyMessage body = .ok (some m)) (ht : jsFalsyJson m = false) :
    httpErrorMessage status body = .ok (jsToMessage m) := by
  simp only [httpBodyMessage] at hm
  simp only [httpErrorMessage]
  cases hma : jsMemberAccess (some ((parseJson body).getD (.obj []))) "error"
      with
  | error e => simp [hma] at hm
  | ok errVal =>
    simp only [hma, Except.ok.injEq] at hm
    simp [hma, hm, ht]

theorem httpErrorMessage_fallback (status : Nat) {body : String}
    (h : httpBodyMessage body = .ok none ∨
      ∃ m, httpBodyMessage body = .ok (some m) ∧ jsFalsyJson m = true) :
    httpErrorMessage status body =
      .ok ("HTTP error! status: " ++ Nat.repr status) := by
  simp only [httpBodyMessage] at h
  simp only [httpErrorMessage]
  cases hma : jsMemberAccess (some ((parseJson body).getD (.obj []))) "error"
      with
  | error e =>
    rcases h with h | ⟨m, hm, _⟩
    · simp [hma] at h
    · simp [hma] at hm
  | ok errVal =>
    rcases h with h | ⟨m, hm, ht⟩
    · simp only [hma, Except.ok.injEq] at h
      simp [hma, h]
    · simp only [hma, Except.ok.injEq] at hm
      simp [hma, hm, ht]

theorem jsToMessage_str (s : String) : jsToMessage (.str s) = s := rfl

theorem jsToMessage_obj (kvs : List (String × Json)) :
    jsToMessage (.obj kvs) = "[object Object]" := rfl

/-- Claim C6 as amended: on a non-2xx response the adapter throws
`new Error(errorData.error?.message || "HTTP error! status: <status>")`.
When the parsed body carries a truthy `error.message` value, the failure
message is that value's `String()` coercion — verbatim for a non-empty
string message (in particular the 401 body
`{"error":{"message":"invalid key"}}` yields `"invalid key"`), and
`"[object Object]"` for an object-valued message.  When the value is
absent (unparseable body, non-object body, missing `error.message`) or
falsy (an empty-string, `false`, `0` or `null` message), the failure
carries the generic `"HTTP error! status: <status>"` message.  The first
conjunct shows these cases are exhaustive but for a body parsing to JSON
`null`, where the member access itself throws a `TypeError` that becomes
the reported failure (second conjunct; see also the counterexample). -/
theorem claimC6_http_error (fileDataBase64 : String)
    (fields : List ExtractionField) (mimeType : String)
    (config : OpenAIConfig) (systemPrompt : String)
    (temperature : JsonNumber) (status : Nat) (body : String) :
    (parseJson body = some .null ∨ httpBodyMessage body = .ok none ∨
      ∃ m, httpBodyMessage body = .ok (some m)) ∧
    (parseJson body = some .null →
      extractFromOpenAI fileDataBase64 fields mimeType config systemPrompt
        temperature (fun _ => .response false status body) =
        .error (.typeErrorNullAccess "error")) ∧
    (∀ m, httpBodyMessage body = .ok (some m) → jsFalsyJson m = false →
      extractFromOpenAI fileDataBase64 fields mimeType config systemPrompt
        temperature (fun _ => .response false status body) =
        .error (.error (jsToMessage m))) ∧
    (∀ s, httpBodyMessage body = .ok (some (.str s)) → s ≠ "" →
      extractFromOpenAI fileDataBase64 fields mimeType config systemPrompt
        temperature (fun _ => .response false status body) =
        .error (.error s)) ∧
    (∀ kvs, httpBodyMessage body = .ok (some (.obj kvs)) →
      extractFromOpenAI fileDataBase64 fields mimeType config systemPrompt
        temperature (fun _ => .response false status body) =
        .error (.error "[object Object]")) ∧
    (httpBodyMessage body = .ok none →
      extractFromOpenAI fileDataBase64 fields mimeType config systemPrompt
        temperature (fun _ => .response false status body) =
        .error (.error ("HTTP error! status: " ++ Nat.repr status))) ∧
    (∀ m, httpBodyMessage body = .ok (some m) → jsFalsyJson m = true →
      extractFromOpenAI fileDataBase64 fields mimeType config systemPrompt
        temperature (fun _ => .response false status body) =
        .error (.error ("HTTP error! status: " ++ Nat.repr status))) ∧
    extractFromOpenAI "img" [] "image/png" sampleConfig "p" ⟨0, 0⟩
        (fun _ =>
          .response false 401
            "\x7b\"error\":\x7b\"message\":\"invalid key\"\x7d\x7d") =
      .error (.error "invalid key") := by
  refine ⟨httpBodyMessage_cases body, ?_, ?_, ?_, ?_, ?_, ?_, rfl⟩
  · intro h
    have hmsg := httpErrorMessage_null status h
    simp [extractFromOpenAI, extractFromOpenAITry, hmsg]
  · intro m hm ht
    have hmsg := httpErrorMessage_truthy status hm ht
    simp [extractFromOpenAI, extractFromOpenAITry, hmsg]
  · intro s hm hs
    have ht : jsFalsyJson (.str s) = false := by simpa [jsFalsyJson] using hs
    have hmsg := httpErrorMessage_truthy status hm ht
    rw [jsToMessage_str] at hmsg
    simp [extractFromOpenAI, extractFromOpenAITry, hmsg]
  · intro kvs hm
    have hmsg := httpErrorMessage_truthy status hm rfl
    rw [jsToMessage_obj] at hmsg
    simp [extractFromOpenAI, extractFromOpenAITry, hmsg]
  · intro h
    have hmsg := httpErrorMessage_fallback status (Or.inl h)
    simp [extractFromOpenAI, extractFromOpenAITry, hmsg]
  · intro m hm ht
    have hmsg := httpErrorMessage_fallback status (Or.inr ⟨m, hm, ht⟩)
    simp [extractFromOpenAI, extractFromOpenAITry, hmsg]

/-- Witness for C6 applying four conjuncts at concrete responses: a string
message reported verbatim, an object-valued message coerced to
`"[object Object]"`, an empty-string message falling back to the generic
message, and an unparseable body falling back to the generic message. -/
theorem claimC6_witness :
    extractFromOpenAI "doc" [] "application/pdf" sampleConfig "sys" ⟨1, -1⟩
        (fun _ =>
          .response false 401
            "\x7b\"error\":\x7b\"message\":\"invalid key\"\x7d\x7d") =
      .error (.error "invalid key") ∧
    extractFromOpenAI "doc" [] "application/pdf" sampleConfig "sys" ⟨1, -1⟩
        (fun _ =>
          .response false 401
            "\x7b\"error\":\x7b\"message\":\x7b\x7d\x7d\x7d") =
      .error (.error "[object Object]") ∧
    extractFromOpenAI "doc" [] "application/pdf" sampleConfig "sys" ⟨1, -1⟩
        (fun _ => .response false 503 "\x7b\"error\":\x7b\"message\":\"\"\x7d\x7d") =
      .error (.error ("HTTP error! status: " ++ Nat.repr 503)) ∧
    extractFromOpenAI "doc" [] "application/pdf" sampleConfig "sys" ⟨1, -1⟩
        (fun _ => .response false 500 "oops not json") =
      .error (.error ("HTTP error! status: " ++ Nat.repr 500)) :=
  ⟨(claimC6_http_error "doc" [] "application/pdf" sampleConfig "sys" ⟨1, -1⟩
      401 "\x7b\"error\":\x7b\"message\":\"invalid key\"\x7d\x7d").2.2.2.1
      "invalid key" rfl (by decide),
   (claimC6_http_error "doc" [] "application/pdf" sampleConfig "sys" ⟨1, -1⟩
      401 "\x7b\"error\":\x7b\"message\":\x7b\x7d\x7d\x7d").2.2.2.2.1
      [] rfl,
   (claimC6_http_error "doc" [] "application/pdf" sampleConfig "sys" ⟨1, -1⟩
      503 "\x7b\"error\":\x7b\"message\":\"\"\x7d\x7d").2.2.2.2.2.2.1
      (.str "") rfl rfl,
   (claimC6_http_error "doc" [] "application/pdf" sampleConfig "sys" ⟨1, -1⟩
      500 "oops not json").2.2.2.2.2.1 rfl⟩

/-- Counterexample to claim C6 as stated: a 401 response whose body is the
valid JSON text `null` makes `errorData.error` a property access on `null`,
which throws a `TypeError`; the adapter neither extracts a body message nor
reports the generic status message. -/
theorem claimC6_counterexample :
    extractFromOpenAI "img" [] "image/png" sampleConfig "p" ⟨0, 0⟩
        (fun _ => .response false 401 "null") =
      .error (.typeErrorNullAccess "error") ∧
    JsError.typeErrorNullAccess "error" ≠
      JsError.error ("HTTP error! status: " ++ Nat.repr 401) :=
  ⟨rfl, by decide⟩

theorem networkErrorMessage_ne_generic (status : Nat) :
    networkErrorMessage ≠ "HTTP error! status: " ++ Nat.repr status := by
  intro h
  have h2 : networkErrorMessage.data.head? =
      ("HTTP error! status: " ++ Nat.repr status).data.head? := by rw [h]
  rw [String.data_append] at h2
  have hN : networkErrorMessage.data.head? = some 'N' := rfl
  have hH : (("HTTP error! status: ").data ++ (Nat.repr status).data).head? =
      some 'H' := rfl
  rw [hN, hH] at h2
  simp at h2

/-- Claim C7 as amended: a transport-layer failure makes the Generic Chat
adapter fail with the fixed network-guidance message (which tells the user
to check the endpoint URL); that message differs from the generic
`"HTTP error! status: <status>"` message for every status, and from any
HTTP failure whose body-supplied message is not itself the guidance text.
(The amendment: an HTTP failure whose body supplies exactly the guidance
text is indistinguishable — see the counterexample.) -/
theorem claimC7_network_error (fileDataBase64 : String)
    (fields : List ExtractionField) (mimeType : String)
    (config : OpenAIConfig) (systemPrompt : String)
    (temperature : JsonNumber) :
    (extractFromOpenAI fileDataBase64 fields mimeType config systemPrompt
        temperature (fun _ => .networkFailure) =
      .error (.error networkErrorMessage)) ∧
    (∀ status : Nat,
      networkErrorMessage ≠ "HTTP error! status: " ++ Nat.repr status) ∧
    (∀ (status : Nat) (body : String) kvs s,
      parseJson body = some (.obj kvs) →
      jsOptChainMember (jsObjLookup kvs "error") "message" = some (.str s) →
      s ≠ "" → s ≠ networkErrorMessage →
      extractFromOpenAI fileDataBase64 fields mimeType config systemPrompt
        temperature (fun _ => .response false status body) ≠
        .error (.error networkErrorMessage)) := by
  refine ⟨rfl, networkErrorMessage_ne_generic, ?_⟩
  intro status body kvs s hp hm hs hsne
  rw [openAI_http_message fileDataBase64 fields mimeType config systemPrompt
    temperature status body kvs s hp hm hs]
  intro h
  apply hsne
  injection h with h'
  injection h'

/-- Witness for C7 at concrete inputs: the transport failure yields the
guidance message, and a 401 whose body message is `"invalid key"` yields a
different failure. -/
theorem claimC7_witness :
    extractFromOpenAI "img" [] "image/png" sampleConfig "p" ⟨0, 0⟩
        (fun _ => .networkFailure) = .error (.error networkErrorMessage) ∧
    extractFromOpenAI "img" [] "image/png" sampleConfig "p" ⟨0, 0⟩
        (fun _ =>
          .response false 401
            "\x7b\"error\":\x7b\"message\":\"invalid key\"\x7d\x7d") ≠
      .error (.error networkErrorMessage) :=
  ⟨(claimC7_network_error "img" [] "image/png" sampleConfig "p" ⟨0, 0⟩).1,
   (claimC7_network_error "img" [] "image/png" sampleConfig "p" ⟨0, 0⟩).2.2
     401 "\x7b\"error\":\x7b\"message\":\"invalid key\"\x7d\x7d"
     [("error", .obj [("message", .str "invalid key")])] "invalid key"
     rfl rfl (by decide) (by decide)⟩

/-- Counterexample to claim C7 as stated: the network failure is NOT
distinguishable from every non-2xx HTTP failure — a 401 whose body's
`error.message` is exactly the guidance text produces the identical
failure value. -/
theorem claimC7_counterexample :
    extractFromOpenAI "img" [] "image/png" sampleConfig "p" ⟨0, 0⟩
        (fun _ => .networkFailure) =
      extractFromOpenAI "img" [] "image/png" sampleConfig "p" ⟨0, 0⟩
        (fun _ => .response false 401 craftedBody) ∧
    extractFromOpenAI "img" [] "image/png" sampleConfig "p" ⟨0, 0⟩
        (fun _ => .response false 401 craftedBody) =
      .error (.error networkErrorMessage) :=
  ⟨rfl, rfl⟩

/-- Counterexample to claim C1 as stated: with the provider tag `'openai'`
and an endpoint config present but entirely empty (so not fully populated
in the sense of the §3 invariant), `extractData` still routes to the
Generic Chat adapter instead of falling back to the structured one. -/
theorem claimC1_counterexample :
    extractDataRoute ⟨.openai, some ⟨"", "", ""⟩, "sys", ⟨1, -1⟩⟩ =
      .openaiRoute ∧
    specEndpointFullyPopulated ⟨.openai, some ⟨"", "", ""⟩, "sys", ⟨1, -1⟩⟩ =
      false :=
  ⟨rfl, rfl⟩

/-- Claim C1 as amended: `extractData` routes to the Generic Chat (OpenAI)
adapter exactly when the provider tag is `'openai'` and the `openai` config
object is present — its fields are never checked for non-emptiness; every
other case (the `'gemini'` tag, or `'openai'` with the config absent) falls
back silently to the structured (Gemini) adapter without surfacing a
configuration error. -/
theorem claimC1_routing (settings : AppSettings) (fileDataBase64 : String)
    (fields : List ExtractionField) (mimeType : String)
    (envApiKey : Option String) (geminiNet : GeminiRequest → String)
    (openAIFetch : OpenAIRequest → FetchOutcome) :
    (extractDataRoute settings = .openaiRoute ↔
      settings.provider = .openai ∧ settings.openai.isSome) ∧
    (∀ cfg, settings.provider = .openai → settings.openai = some cfg →
      extractData fileDataBase64 fields mimeType settings envApiKey geminiNet
          openAIFetch =
        extractFromOpenAI fileDataBase64 fields mimeType cfg
          settings.systemPrompt settings.temperature openAIFetch) ∧
    (extractDataRoute settings = .geminiRoute →
      extractData fileDataBase64 fields mimeType settings envApiKey geminiNet
          openAIFetch =
        extractFromGemini fileDataBase64 fields mimeType
          settings.systemPrompt settings.temperature envApiKey geminiNet) := by
  obtain ⟨p, o, sp, t⟩ := settings
  refine ⟨?_, ?_, ?_⟩
  · cases p <;> cases o <;> simp [extractDataRoute]
  · intro cfg hp ho
    simp only at hp ho
    subst hp
    subst ho
    rfl
  · cases p <;> cases o <;> simp [extractDataRoute, extractData]

/-- Witness for C1 at concrete settings for both routes. -/
theorem claimC1_witness :
    extractData "img" [] "image/png" ⟨.gemini, none, "p", ⟨0, 0⟩⟩ none
        (fun _ => "\x7b\x7d") (fun _ => .networkFailure) =
      extractFromGemini "img" [] "image/png" "p" ⟨0, 0⟩ none
        (fun _ => "\x7b\x7d") ∧
    extractData "img" [] "image/png"
        ⟨.openai, some sampleConfig, "p", ⟨0, 0⟩⟩ none
        (fun _ => "\x7b\x7d") (fun _ => .networkFailure) =
      extractFromOpenAI "img" [] "image/png" sampleConfig "p" ⟨0, 0⟩
        (fun _ => .networkFailure) :=
  ⟨(claimC1_routing ⟨.gemini, none, "p", ⟨0, 0⟩⟩ "img" [] "image/png" none
      (fun _ => "\x7b\x7d") (fun _ => .networkFailure)).2.2 rfl,
   (claimC1_routing ⟨.openai, some sampleConfig, "p", ⟨0, 0⟩⟩ "img" []
      "image/png" none (fun _ => "\x7b\x7d")
      (fun _ => .networkFailure)).2.1 sampleConfig rfl rfl⟩

theorem applyOutcome_id (outcome : FileRecord → Except String Json)
    (f : FileRecord) : (applyOutcome outcome f).id = f.id := by
  unfold applyOutcome
  cases outcome f <;> rfl

theorem processFile_map (outcome : FileRecord → Except String Json)
    (cur : List FileRecord) (id : String) :
    processFile outcome cur id =
      cur.map fun f => if f.id == id then applyOutcome outcome f else f := by
  unfold processFile
  cases hf : cur.find? (fun f => f.id == id) with
  | some _ => rfl
  | none =>
    have hnone : ∀ f ∈ cur, (f.id == id) = false := by
      intro f hf'
      have := List.find?_eq_none.mp hf f hf'
      simpa using this
    have hmap : (cur.map fun f =>
        if f.id == id then applyOutcome outcome f else f) = cur := by
      have h := List.map_congr_left (l := cur)
        (f := fun f => if f.id == id then applyOutcome outcome f else f)
        (g := fun f => f) (fun f hf' => by simp only [hnone f hf']; simp)
      simpa using h
    exact hmap.symm

theorem foldl_processFile (outcome : FileRecord → Except String Json) :
    ∀ (sel : List String) (cur : List FileRecord), sel.Nodup →
      sel.foldl (processFile outcome) cur =
        cur.map fun f => if f.id ∈ sel then applyOutcome outcome f else f
  | [], cur, _ => by simp
  | a :: rest, cur, hnd => by
    rw [List.foldl_cons, processFile_map,
      foldl_processFile outcome rest _ hnd.of_cons, List.map_map]
    apply List.map_congr_left
    intro f _
    simp only [Function.comp_apply]
    by_cases hfa : f.id = a
    · have ha : a ∉ rest := (List.nodup_cons.mp hnd).1
      simp [hfa, applyOutcome_id, ha]
    · simp [hfa, List.mem_cons]

theorem toProcess_hasPending (files : List FileRecord)
    (h : hasPending files = true) :
    toProcess files = files.filter isPendingOrError := by
  unfold toProcess
  apply List.filter_congr
  intro f _
  cases hst : f.status <;> simp [isPendingOrError, hst, h]

theorem toProcess_allCompleted (files : List FileRecord)
    (h : ∀ f ∈ files, f.status = DocStatus.completed) :
    toProcess files = files := by
  have hp : hasPending files = false := by
    rw [hasPending, List.any_eq_false]
    intro f hf
    simp [isPendingOrError, h f hf]
  unfold toProcess
  rw [List.filter_eq_self]
  intro f hf
  simp [h f hf, hp]

theorem foldl_processFile_ids (outcome : FileRecord → Except String Json)
    (l init : List FileRecord) :
    l.foldl (fun cur f => processFile outcome cur f.id) init =
      (l.map fun f => f.id).foldl (processFile outcome) init :=
  (List.foldl_map (fun f => f.id) (processFile outcome) l init).symm

/-- Claim C9: the Batch Runner's selection processes exactly the `pending`
and `error` documents, in declaration order, whenever any such document
exists, leaving `processing` and `completed` records untouched; when every
document is `completed` it reprocesses all of them; and in particular a
batch with statuses `[completed, error, pending]` selects exactly
documents 2 and 3 in that order and leaves document 1's record
unchanged. -/
theorem claimC9_batch_runner :
    (∀ files, hasPending files = true →
      toProcess files = files.filter isPendingOrError) ∧
    (∀ files, (∀ f ∈ files, f.status = DocStatus.completed) →
      toProcess files = files) ∧
    (∀ outcome files, (files.map fun f => f.id).Nodup →
      hasPending files = true →
      processAll outcome files =
        files.map fun f =>
          if isPendingOrError f then applyOutcome outcome f else f) ∧
    (∀ outcome files, (files.map fun f => f.id).Nodup →
      (∀ f ∈ files, f.status = DocStatus.completed) →
      processAll outcome files = files.map (applyOutcome outcome)) ∧
    (toProcess [doc1, doc2, doc3] = [doc2, doc3] ∧
      processAll okOutcome [doc1, doc2, doc3] =
        [doc1,
         ⟨"2", "b.png", "blob:2", .completed,
           some (.obj [("width", .num ⟨7, 0⟩)]), none, some "h2"⟩,
         ⟨"3", "c.png", "blob:3", .completed,
           some (.obj [("width", .num ⟨7, 0⟩)]), none, some "h3"⟩]) := by
  refine ⟨toProcess_hasPending, toProcess_allCompleted, ?_, ?_, rfl, rfl⟩
  · intro outcome files hnd hp
    unfold processAll
    rw [toProcess_hasPending files hp, foldl_processFile_ids,
      foldl_processFile outcome _ _
        (List.Nodup.sublist
          (List.Sublist.map (fun f => f.id) (List.filter_sublist files)) hnd)]
    apply List.map_congr_left
    intro f hf
    by_cases hpe : isPendingOrError f = true
    · have hmem : f.id ∈ (files.filter isPendingOrError).map fun f => f.id :=
        List.mem_map_of_mem _ (List.mem_filter.mpr ⟨hf, hpe⟩)
      simp [hmem, hpe]
    · have hmem : f.id ∉ (files.filter isPendingOrError).map fun f => f.id := by
        intro hmem
        obtain ⟨g, hg, hgid⟩ := List.mem_map.mp hmem
        have hgf := List.mem_filter.mp hg
        have hgeq : g = f := List.inj_on_of_nodup_map hnd hgf.1 hf hgid
        rw [hgeq] at hgf
        exact hpe hgf.2
      simp [hmem, hpe]
  · intro outcome files hnd hc
    unfold processAll
    rw [toProcess_allCompleted files hc, foldl_processFile_ids,
      foldl_processFile outcome _ _ hnd]
    apply List.map_congr_left
    intro f hf
    simp [List.mem_map_of_mem (fun f => f.id) hf]

/-- Witness for C9 applying the selection and untouched-record conjuncts at
the concrete three-document batch. -/
theorem claimC9_witness :
    toProcess [doc1, doc2, doc3] =
      List.filter isPendingOrError [doc1, doc2, doc3] ∧
    processAll okOutcome [doc1, doc2, doc3] =
      List.map
        (fun f => if isPendingOrError f then applyOutcome okOutcome f else f)
        [doc1, doc2, doc3] :=
  ⟨claimC9_batch_runner.1 [doc1, doc2, doc3] rfl,
   claimC9_batch_runner.2.2.1 okOutcome [doc1, doc2, doc3] (by decide) rfl⟩
